import Mathlib

/-
Shallow embedding of the validation execution engine of the data-validation
backend:

  * `validate_batch_with_ai` embeds backend/app/services/ai_service.py
    (semantic judging: dedup, batched judge call, verdict-map parsing);
  * `run_validation` embeds backend/app/services/gx_service.py
    (rule splitting, deterministic checkpoint, semantic loop, result merge);
  * `parseSummary` / `displaySuccess` embed the summary parsing of
    backend/app/api/endpoints.py (run_validation and read_runs);
  * `gxDriver` / `gxConnectionString` embed the SQL branch of gx_service;
  * `get_db_preview_url` embeds the connection-string construction of
    backend/app/core/db_utils.py up to the point where the URL is handed
    to create_engine (Except.ok) or an exception is raised first
    (Except.error).

External collaborators (the Great Expectations checkpoint run and the
Gemini judge) are parameters: `CheckpointOutcome` stands for the outcome
of `checkpoint.run` on the standard suite, and `judge` for one
generate-content round trip (`none` = the call or its JSON parsing raised).
Python floats are modelled as rationals; Python dicts keyed by strings as
insertion-ordered association lists with Python update semantics.
-/

namespace DV

/-- Python-like scalar values that can appear in a dataframe column. -/
inductive Value where
  | vNull
  | vStr (s : String)
  | vInt (n : Int)
  | vBool (b : Bool)
deriving DecidableEq, Repr

/-- Python `str(v)`, as used when keying the judge verdict map
(gx_service line 189). -/
def pyStr : Value → String
  | .vNull => "None"
  | .vStr s => s
  | .vInt n => toString n
  | .vBool b => if b then "True" else "False"

/-- The membership test `v in [None, ""]` from ai_service line 13. -/
def isNoneOrEmpty : Value → Bool
  | .vNull => true
  | .vStr s => s == ""
  | _ => false

/-- Python dict assignment `m[k] = v`: update in place (keeping the key
position) when the key exists, append otherwise. -/
def dictInsert {β : Type} (m : List (String × β)) (k : String) (v : β) :
    List (String × β) :=
  if m.any (fun p => p.1 == k) then
    m.map (fun p => if p.1 == k then (k, v) else p)
  else m ++ [(k, v)]

/-- Python `m.get(k, d)`. -/
def dictGet {β : Type} (m : List (String × β)) (k : String) (d : β) : β :=
  match m.find? (fun p => p.1 == k) with
  | some p => p.2
  | none => d

/-- Python `k in m` for a dict. -/
def dictHasKey {β : Type} (m : List (String × β)) (k : String) : Bool :=
  m.any (fun p => p.1 == k)

/-- ai_service line 13: `list(set([str(v) for v in values if v not in [None, ""]]))`.
`List.dedup` is a determinization of the Python set order; all properties
proved about it are order-insensitive. -/
def uniqueValues (values : List Value) : List String :=
  ((values.filter (fun v => !isNoneOrEmpty v)).map pyStr).dedup

/-- ai_service lines 46-48: `validation_map[item["value"]] = item["isValid"]`
over the parsed `results` list. -/
def buildValidationMap (results : List (String × Bool)) : List (String × Bool) :=
  results.foldl (fun m r => dictInsert m r.1 r.2) []

/-- ai_service `validate_batch_with_ai(values, prompt)`.
`judge prompt u` models one Gemini round trip on the deduplicated values
`u` (`none` = the request or its JSON parsing raised, so the `except`
branch returns `{}`); `apiKey` models `settings.GEMINI_API_KEY` being set
(the no-key branch returns all-False without any judge call).
Returns the verdict map together with the log of judge-call arguments. -/
def validate_batch_with_ai (apiKey : Bool)
    (judge : String → List String → Option (List (String × Bool)))
    (prompt : String) (values : List Value) :
    List (String × Bool) × List (List String) :=
  let u := uniqueValues values
  if u.isEmpty then ([], [])
  else if apiKey then
    match judge prompt u with
    | some results => (buildValidationMap results, [u])
    | none => ([], [u])
  else (u.map (fun s => (s, false)), [])

/-- The `statistics` blob of one `run_results` entry, as read back by the
endpoints summary parsing. Genuine Great Expectations statistics carry no
`success` key (`success := none`); the synthetic error entry and the
semantic entries set it explicitly. -/
structure Stats where
  success : Option Bool
  successPercent : ℚ
  observedValue : Option String
deriving DecidableEq, Repr

/-- The result dict returned by gx_service.run_validation: the ordered
`run_results` mapping and the top-level `success` flag (the latter is not
read by the endpoints summary parsing). -/
structure ResultDict where
  runResults : List (String × Stats)
  success : Bool
deriving DecidableEq, Repr

/-- One entry of `suite.expectations`: a dict with a `type`, an optional
top-level `column`, and `kwargs` holding an optional `column` and `prompt`. -/
structure Exp where
  type : String
  column : Option String
  kwargsColumn : Option String
  kwargsPrompt : Option String
deriving DecidableEq, Repr

/-- The single rule type routed to the semantic path (gx_service line 26). -/
def aiType : String := "expect_column_values_to_match_ai_semantic_check"

/-- gx_service lines 25-29: the expectations routed to the semantic path. -/
def aiExpectations (exps : List Exp) : List Exp :=
  exps.filter (fun e => e.type == aiType)

/-- gx_service lines 25-29: every other expectation, unknown types
included, is routed to the standard (Great Expectations) path. -/
def standardExpectations (exps : List Exp) : List Exp :=
  exps.filter (fun e => !(e.type == aiType))

/-- The resolved tabular view used by the semantic loop: `df_head`,
modelled as an association of column names to column value lists. -/
structure Batch where
  cols : List (String × List Value)
deriving DecidableEq, Repr

/-- Python `col in df_head.columns`. -/
def Batch.hasCol (b : Batch) (c : String) : Bool :=
  b.cols.any (fun p => p.1 == c)

/-- `df_head[col].tolist()`. -/
def Batch.colValues (b : Batch) (c : String) : List Value :=
  dictGet b.cols c []

/-- Outcome of `checkpoint.run` on the standard suite (gx_service lines
134-163): either a result dict with one validation entry whose statistics
are `stats`, or an exception whose message feeds the synthetic failure
entry. -/
inductive CheckpointOutcome where
  | ok (topSuccess : Bool) (stats : Stats)
  | failed (errMsg : String)
deriving DecidableEq, Repr

/-- The synthetic `error` entry built in gx_service lines 149-163 when
`checkpoint.run` raises. -/
def syntheticStats (msg : String) : Stats :=
  { success := some false
    successPercent := 0
    observedValue := some ("Critical Validation Error: " ++ msg) }

/-- gx_service line 189: `[v for v in values if not validation_map.get(str(v), False)]`.
A value whose string form is absent from the map defaults to `False` and
is therefore counted as a failure. -/
def aiFailures (values : List Value) (vmap : List (String × Bool)) : List Value :=
  values.filter (fun v => !(dictGet vmap (pyStr v) false))

/-- gx_service lines 190-203: the statistics blob injected for one
semantic rule. -/
def aiRuleStats (values : List Value) (vmap : List (String × Bool)) : Stats :=
  let failures := aiFailures values vmap
  let success := failures.isEmpty
  { success := some success
    successPercent := if success then 100 else 0
    observedValue := some ("AI Checked: " ++ toString failures.length ++ " failures") }

/-- One iteration of the semantic loop (gx_service lines 179-204):
skipped unless `kwargs.column` is truthy and present in `df_head.columns`;
otherwise the rule outcome is written under the key
`ai_validation_<column>` with Python dict update semantics. -/
def processAIExp (apiKey : Bool)
    (judge : String → List String → Option (List (String × Bool)))
    (batch : Batch) (acc : List (String × Stats)) (e : Exp) :
    List (String × Stats) × List (List String) :=
  match e.kwargsColumn with
  | some c =>
    if c != "" && batch.hasCol c then
      let values := (batch.colValues c).take 1000
      let prompt := e.kwargsPrompt.getD "Is valid"
      let r := validate_batch_with_ai apiKey judge prompt values
      (dictInsert acc ("ai_validation_" ++ c) (aiRuleStats values r.1), r.2)
    else (acc, [])
  | none => (acc, [])

/-- The whole semantic loop, threading the `run_results` dict and
accumulating the judge-call log. -/
def runAIExps (apiKey : Bool)
    (judge : String → List String → Option (List (String × Bool)))
    (batch : Batch) :
    List (String × Stats) → List Exp → List (String × Stats) × List (List String)
  | acc, [] => (acc, [])
  | acc, e :: rest =>
    let r1 := processAIExp apiKey judge batch acc e
    let r2 := runAIExps apiKey judge batch r1.1 rest
    (r2.1, r1.2 ++ r2.2)

/-- gx_service lines 123-166: the result dict before the semantic loop
(checkpoint run when any standard expectation exists, otherwise the
minimal empty result; "validation_result" labels the checkpoint's single
run-result entry). -/
def baseResultDict (checkpoint : CheckpointOutcome) (std : List Exp) : ResultDict :=
  if std.isEmpty then { runResults := [], success := true }
  else
    match checkpoint with
    | .ok ts st => { runResults := [("validation_result", st)], success := ts }
    | .failed msg => { runResults := [("error", syntheticStats msg)], success := false }

/-- gx_service.run_validation, from rule splitting to the returned result
dict. The file/SQL source is already resolved into `batch`; `checkpoint`
stands for the Great Expectations checkpoint run on the standard suite.
Returns the result dict and the judge-call log. -/
def run_validation (apiKey : Bool)
    (judge : String → List String → Option (List (String × Bool)))
    (checkpoint : CheckpointOutcome) (batch : Batch) (exps : List Exp) :
    ResultDict × List (List String) :=
  let base := baseResultDict checkpoint (standardExpectations exps)
  let ai := aiExpectations exps
  if ai.isEmpty then (base, [])
  else
    let r := runAIExps apiKey judge batch base.runResults ai
    ({ runResults := r.1, success := base.success }, r.2)

/-- endpoints lines 273-290: the naive summary parsing of the raw result.
Only the first `run_results` entry is inspected (the loop breaks), and a
score of exactly 100 forces the success flag to true. -/
def parseSummary (runResults : List (String × Stats)) : Bool × ℚ :=
  match runResults with
  | [] => (true, 0)
  | (_, st) :: _ =>
    (if st.successPercent = 100 then true else st.success.getD false,
     st.successPercent)

/-- endpoints line 329 (read_runs): historical display reconciliation
`success = r.success or r.score == 100.0`. -/
def displaySuccess (storedSuccess : Bool) (storedScore : ℚ) : Bool :=
  storedSuccess || decide (storedScore = 100)

/-- Prefix test on character lists. -/
def isPre : List Char → List Char → Bool
  | [], _ => true
  | _ :: _, [] => false
  | a :: as, b :: bs => a == b && isPre as bs

/-- Substring test on character lists. -/
def hasInf (needle : List Char) : List Char → Bool
  | [] => isPre needle []
  | c :: rest => isPre needle (c :: rest) || hasInf needle rest

/-- Python `needle in hay` on strings. -/
def pyContains (needle hay : String) : Bool :=
  hasInf needle.toList hay.toList

/-- Python `s.lower()` (ASCII). -/
def pyLower (s : String) : String :=
  String.mk (s.data.map Char.toLower)

/-- Database descriptor fields, each `db_config.get(...)` result. -/
structure DbConfig where
  type : Option String
  host : Option String
  port : Option String
  username : Option String
  password : Option String
  database : Option String
  table : Option String
deriving DecidableEq, Repr

/-- Python `str()` of an optional string, as interpolated by f-strings. -/
def pyOptStr : Option String → String
  | none => "None"
  | some s => s

/-- gx_service lines 77-86: driver selection with a silent default
fallback for unknown dialects. -/
def gxDriver (cfg : DbConfig) : String :=
  let db_type := pyLower (cfg.type.getD "")
  if pyContains "postgres" db_type then "postgresql+psycopg2"
  else if pyContains "mysql" db_type then "mysql+pymysql"
  else if pyContains "sqlite" db_type then "sqlite"
  else "postgresql+psycopg2"

/-- gx_service lines 88-101: the connection string interpolates raw
credential strings (no percent-encoding). -/
def gxConnectionString (cfg : DbConfig) : String :=
  let driver := gxDriver cfg
  if driver == "sqlite" then "sqlite:///" ++ pyOptStr cfg.host
  else
    driver ++ "://" ++ pyOptStr cfg.username ++ ":" ++ pyOptStr cfg.password ++
      "@" ++ pyOptStr cfg.host ++ ":" ++ pyOptStr cfg.port ++ "/" ++ pyOptStr cfg.database

/-- Hexadecimal digit for percent-encoding. -/
def hexChar (n : Nat) : Char :=
  (['0', '1', '2', '3', '4', '5', '6', '7', '8', '9',
    'A', 'B', 'C', 'D', 'E', 'F']).getD n 'X'

/-- `urllib.parse.quote_plus` on one ASCII character: space becomes `+`,
letters, digits and `_.-~` pass through, everything else is
percent-encoded. -/
def quotePlusChar (c : Char) : String :=
  if c == ' ' then "+"
  else if c.isAlphanum || c == '_' || c == '.' || c == '-' || c == '~' then
    String.singleton c
  else
    "%" ++ String.singleton (hexChar (c.toNat / 16 % 16)) ++
      String.singleton (hexChar (c.toNat % 16))

/-- `urllib.parse.quote_plus` on an ASCII string. -/
def quotePlus (s : String) : String :=
  String.join (s.toList.map quotePlusChar)

/-- db_utils lines 20-21: `quote_plus(user) if user else ""`
(a missing or empty credential encodes to the empty string). -/
def encOptCred : Option String → String
  | none => ""
  | some s => if s == "" then "" else quotePlus s

/-- Python `a or b` on two optional strings (`None` and `""` are falsy). -/
def pyOrOpt (a b : Option String) : Option String :=
  match a with
  | some s => if s == "" then b else some s
  | none => b

/-- db_utils.get_db_preview up to the connection attempt: `Except.ok url`
means `url` is handed to `create_engine` (a connection attempt follows);
`Except.error msg` means the function raises before any connection
attempt. `pymssqlAvailable` / `cxOracleAvailable` model the driver
imports. -/
def get_db_preview_url (pymssqlAvailable cxOracleAvailable : Bool)
    (cfg : DbConfig) : Except String String :=
  let db_type := pyLower (cfg.type.getD "")
  let ue := encOptCred cfg.username
  let pe := encOptCred cfg.password
  if pyContains "sqlite" db_type then
    match pyOrOpt cfg.host cfg.database with
    | none => .error "SQLite requires a database file path. Please specify the file path in the Host or Database field."
    | some f =>
      if f.trim == "" then
        .error "SQLite requires a database file path. Please specify the file path in the Host or Database field."
      else .ok ("sqlite:///" ++ f)
  else if pyContains "postgres" db_type then
    .ok ("postgresql+psycopg2://" ++ ue ++ ":" ++ pe ++ "@" ++ pyOptStr cfg.host ++
      ":" ++ pyOptStr cfg.port ++ "/" ++ pyOptStr cfg.database)
  else if pyContains "mysql" db_type then
    .ok ("mysql+pymysql://" ++ ue ++ ":" ++ pe ++ "@" ++ pyOptStr cfg.host ++
      ":" ++ pyOptStr cfg.port ++ "/" ++ pyOptStr cfg.database)
  else if pyContains "sql server" db_type || pyContains "mssql" db_type then
    if pymssqlAvailable then
      .ok ("mssql+pymssql://" ++ ue ++ ":" ++ pe ++ "@" ++ pyOptStr cfg.host ++
        ":" ++ pyOptStr cfg.port ++ "/" ++ pyOptStr cfg.database)
    else .error "SQL Server driver (pymssql) not installed on backend."
  else if pyContains "oracle" db_type then
    if cxOracleAvailable then
      .ok ("oracle+cx_oracle://" ++ ue ++ ":" ++ pe ++ "@" ++ pyOptStr cfg.host ++
        ":" ++ pyOptStr cfg.port ++ "/" ++ pyOptStr cfg.database)
    else .error "Oracle driver (cx_Oracle) not installed on backend."
  else if pyContains "hive" db_type then
    .error "Hive support is currently experimental and requires pyhive."
  else if pyContains "neo4j" db_type then
    .error "Neo4j (Graph DB) is not supported via SQL preview yet."
  else if pyContains "mongodb" db_type then
    .error "MongoDB (NoSQL) is not supported via SQL preview yet."
  else .error ("Unsupported database type: " ++ db_type)

/-- Modelled from the spec: the connection string the specification
prescribes for every relational resolution path, with the username and
password percent-encoded (spec section 4.1). Compared against the
source-derived `gxConnectionString`. -/
def specEncodedConnString (driver : String) (cfg : DbConfig) : String :=
  driver ++ "://" ++ quotePlus (pyOptStr cfg.username) ++ ":" ++
    quotePlus (pyOptStr cfg.password) ++ "@" ++ pyOptStr cfg.host ++ ":" ++
    pyOptStr cfg.port ++ "/" ++ pyOptStr cfg.database

/-- The per-rule outcome the semantic loop writes for a rule targeting
column `c` (the body of one valid loop iteration, factored out). -/
def aiExpOutcome (apiKey : Bool)
    (judge : String → List String → Option (List (String × Bool)))
    (batch : Batch) (c : String) (e : Exp) : Stats :=
  let values := (batch.colValues c).take 1000
  aiRuleStats values
    (validate_batch_with_ai apiKey judge (e.kwargsPrompt.getD "Is valid") values).1

/-! ### Concrete fixtures for counterexamples and witnesses -/

/-- A judge that answers every submitted value as valid. -/
def judgeAllTrue : String → List String → Option (List (String × Bool)) :=
  fun _ vs => some (vs.map (fun s => (s, true)))

/-- An unreachable judge: every call raises. -/
def judgeDown : String → List String → Option (List (String × Bool)) :=
  fun _ _ => none

/-- One column `c` holding the single string value `x`. -/
def batchC : Batch := ⟨[("c", [Value.vStr "x"])]⟩

/-- One column `c` holding a single null occurrence. -/
def batchNullCol : Batch := ⟨[("c", [Value.vNull])]⟩

/-- A semantic rule on column `c`. -/
def aiExpC : Exp := ⟨aiType, none, some "c", some "values are in English"⟩

/-- A second semantic rule on the same column with a different prompt. -/
def aiExpC2 : Exp := ⟨aiType, none, some "c", some "values are city names"⟩

/-- A deterministic not-null rule on column `c`. -/
def detExpNotNull : Exp := ⟨"expect_column_values_to_not_be_null", some "c", none, none⟩

/-- A rule whose type is unknown to both evaluation strategies. -/
def unknownExp : Exp := ⟨"expect_totally_unknown_thing", some "c", none, none⟩

/-- Statistics of a fully passing Great Expectations checkpoint run:
`success_percent` is 100 and genuine statistics carry no `success` key. -/
def gxPassStats : Stats := ⟨none, 100, none⟩

/-- A graph-store descriptor. -/
def cfgNeo : DbConfig := ⟨some "neo4j", some "h", some "7687", some "u", some "p", some "d", none⟩

/-- A postgres descriptor whose password holds a special character. -/
def cfgAt : DbConfig := ⟨some "postgres", some "h", some "5432", some "user", some "p@ss", some "d", none⟩

/-! ### Shared lemmas -/

/-- A parsed score of exactly 100 forces the parsed success flag to true. -/
theorem parseSummary_score100 (rr : List (String × Stats)) :
    (parseSummary rr).2 = 100 → (parseSummary rr).1 = true := by
  match rr with
  | [] =>
    intro h
    simp only [parseSummary] at h
    norm_num at h
  | (k, st) :: t =>
    intro h
    simp only [parseSummary] at h ⊢
    rw [if_pos h]

/-- A key absent from a dict makes `get` return the default. -/
theorem dictGet_eq_default {β : Type} (m : List (String × β)) (k : String) (d : β)
    (h : dictHasKey m k = false) : dictGet m k d = d := by
  induction m with
  | nil => rfl
  | cons p t ih =>
    simp only [dictHasKey, List.any_cons, Bool.or_eq_false_iff] at h
    have hstep : dictGet (p :: t) k d = dictGet t k d := by
      simp only [dictGet, List.find?, h.1]
    rw [hstep]
    exact ih h.2

/-- Every entry of `dictInsert m k v` is an entry of `m` or the new pair. -/
theorem mem_dictInsert {β : Type} {m : List (String × β)} {k : String} {v : β}
    {p : String × β} (hp : p ∈ dictInsert m k v) : p ∈ m ∨ p = (k, v) := by
  unfold dictInsert at hp
  by_cases hc : m.any (fun q => q.1 == k)
  · rw [if_pos hc] at hp
    rcases List.mem_map.mp hp with ⟨q, hq, hqe⟩
    by_cases h2 : (q.1 == k) = true
    · right
      rw [if_pos h2] at hqe
      exact hqe.symm
    · left
      rw [if_neg h2] at hqe
      rw [← hqe]
      exact hq
  · rw [if_neg hc] at hp
    rcases List.mem_append.mp hp with h | h
    · exact Or.inl h
    · right
      simpa using h

/-- The score bounds holding of every statistics entry the engine emits. -/
def pctInRange (st : Stats) : Prop :=
  0 ≤ st.successPercent ∧ st.successPercent ≤ 100

theorem aiRuleStats_pctInRange (values : List Value) (vmap : List (String × Bool)) :
    pctInRange (aiRuleStats values vmap) := by
  simp only [aiRuleStats, pctInRange]
  split <;> norm_num

theorem syntheticStats_pctInRange (msg : String) : pctInRange (syntheticStats msg) := by
  simp only [syntheticStats, pctInRange]
  norm_num

/-- The semantic loop only ever adds statistics entries with scores in
range. -/
theorem runAIExps_pctInRange (apiKey : Bool)
    (judge : String → List String → Option (List (String × Bool)))
    (batch : Batch) :
    ∀ (es : List Exp) (acc : List (String × Stats)),
      (∀ p ∈ acc, pctInRange p.2) →
      ∀ p ∈ (runAIExps apiKey judge batch acc es).1, pctInRange p.2 := by
  intro es
  induction es with
  | nil =>
    intro acc hacc p hp
    simp only [runAIExps] at hp
    exact hacc p hp
  | cons e rest ih =>
    intro acc hacc p hp
    simp only [runAIExps] at hp
    refine ih _ ?_ p hp
    intro q hq
    cases hcol : e.kwargsColumn with
    | none =>
      simp only [processAIExp, hcol] at hq
      exact hacc q hq
    | some c =>
      simp only [processAIExp, hcol] at hq
      by_cases hcnd : (c != "" && batch.hasCol c) = true
      · rw [if_pos hcnd] at hq
        rcases mem_dictInsert hq with hin | hnew
        · exact hacc q hin
        · rw [hnew]
          exact aiRuleStats_pctInRange _ _
      · rw [if_neg hcnd] at hq
        exact hacc q hq

/-- Folding a function that ignores its accumulator returns its value at
the last element. -/
theorem foldl_const_getLast {α β : Type} (f : α → β) :
    ∀ (l : List α) (h : l ≠ []) (s : β),
      l.foldl (fun _ e => f e) s = f (l.getLast h) := by
  intro l
  induction l with
  | nil => intro h; exact absurd rfl h
  | cons a t ih =>
    intro h s
    cases t with
    | nil => rfl
    | cons b t2 =>
      rw [List.foldl_cons]
      rw [ih (by simp) (f a)]
      congr 1

/-- Every statistics entry of the base result dict has its score in
range, provided the checkpoint statistics do. -/
theorem baseResultDict_pctInRange (chk : CheckpointOutcome) (std : List Exp)
    (hchk : ∀ ts st, chk = CheckpointOutcome.ok ts st → pctInRange st) :
    ∀ q ∈ (baseResultDict chk std).runResults, pctInRange q.2 := by
  unfold baseResultDict
  by_cases hstd : std.isEmpty = true
  · rw [if_pos hstd]
    intro q hq
    simp at hq
  · rw [if_neg hstd]
    cases chk with
    | ok ts st =>
      intro q hq
      simp only [List.mem_singleton] at hq
      rw [hq]
      exact hchk ts st rfl
    | failed msg =>
      intro q hq
      simp only [List.mem_singleton] at hq
      rw [hq]
      exact syntheticStats_pctInRange msg

/-- Every statistics entry the whole run emits has its score in range,
provided the checkpoint statistics do. -/
theorem runValidation_entries_pctInRange (apiKey : Bool)
    (judge : String → List String → Option (List (String × Bool)))
    (chk : CheckpointOutcome) (batch : Batch) (exps : List Exp)
    (hchk : ∀ ts st, chk = CheckpointOutcome.ok ts st → pctInRange st) :
    ∀ p ∈ (run_validation apiKey judge chk batch exps).1.runResults, pctInRange p.2 := by
  intro p hp
  simp only [run_validation] at hp
  split at hp
  · exact baseResultDict_pctInRange chk _ hchk p hp
  · exact runAIExps_pctInRange apiKey judge batch _ _
      (baseResultDict_pctInRange chk _ hchk) p hp

/-- When every rule of the loop writes the same key, the dict keeps a
single entry for it, holding the last write. -/
theorem runAIExps_same_key (apiKey : Bool)
    (judge : String → List String → Option (List (String × Bool)))
    (batch : Batch) (c : String)
    (hc : (c != "" && batch.hasCol c) = true) :
    ∀ (es : List Exp), (∀ e ∈ es, e.kwargsColumn = some c) →
      ∀ (s : Stats),
        (runAIExps apiKey judge batch [("ai_validation_" ++ c, s)] es).1 =
          [("ai_validation_" ++ c,
            es.foldl (fun _ e => aiExpOutcome apiKey judge batch c e) s)] := by
  intro es
  induction es with
  | nil => intro _ s; rfl
  | cons e rest ih =>
    intro hall s
    have hcol : e.kwargsColumn = some c := hall e (List.mem_cons_self e rest)
    have hproc : processAIExp apiKey judge batch [("ai_validation_" ++ c, s)] e =
        ([("ai_validation_" ++ c, aiExpOutcome apiKey judge batch c e)],
         (validate_batch_with_ai apiKey judge (e.kwargsPrompt.getD "Is valid")
            ((batch.colValues c).take 1000)).2) := by
      simp only [processAIExp, hcol, hc, if_true, aiExpOutcome]
      simp [dictInsert]
    simp only [runAIExps, hproc]
    rw [ih (fun x hx => hall x (List.mem_cons_of_mem e hx))
      (aiExpOutcome apiKey judge batch c e)]
    rw [List.foldl_cons]

/-! ### Claim C1 -/

/-- Claim C1: whenever the summary score equals 100 the overall success
flag is true, regardless of the per-rule flag carried by the first
statistics entry, and the same reconciliation is applied when stored runs
are read back for display. -/
theorem C1_score100_forces_overall_success (rr : List (String × Stats))
    (storedSuccess : Bool) (storedScore : ℚ) :
    ((parseSummary rr).2 = 100 → (parseSummary rr).1 = true) ∧
      (storedScore = 100 → displaySuccess storedSuccess storedScore = true) := by
  constructor
  · exact parseSummary_score100 rr
  · intro h
    rw [h]
    simp [displaySuccess]

/-- Statistics whose own flag is false while the score is 100. -/
def stubbornFailStats : Stats := ⟨some false, 100, none⟩

/-- Witness for C1: an upstream entry carrying flag false with score 100
is reconciled to overall success, both at creation and at display. -/
theorem C1_witness :
    (parseSummary [("validation_result", stubbornFailStats)]).2 = 100 ∧
      (parseSummary [("validation_result", stubbornFailStats)]).1 = true ∧
      displaySuccess false 100 = true := by
  refine ⟨by decide, ?_, ?_⟩
  · exact (C1_score100_forces_overall_success
      [("validation_result", stubbornFailStats)] false 100).1 (by decide)
  · exact (C1_score100_forces_overall_success
      [("validation_result", stubbornFailStats)] false 100).2 rfl

/-! ### Claim C2 -/

/-- Claim C2 counterexample: one passing deterministic rule plus one
semantic rule with an unreachable judge records score 100 and overall
success true (the first run-results entry wins), not score 50 with
overall success false as the claim states. -/
theorem C2_counterexample :
    parseSummary (run_validation true judgeDown
        (CheckpointOutcome.ok true gxPassStats) batchC
        [detExpNotNull, aiExpC]).1.runResults = (true, 100) ∧
      ((true, (100 : ℚ)) ≠ ((false : Bool), (50 : ℚ))) := by
  exact ⟨by decide, by decide⟩

/-- Claim C2 amended: the recorded success and score are taken from the
first run-results entry alone, so rules are not weighted equally; in the
claimed example the deterministic checkpoint entry comes first and the
run records score 100 with overall success true. -/
theorem C2_amended_first_entry_wins (k : String) (st : Stats)
    (rest : List (String × Stats)) :
    parseSummary ((k, st) :: rest) = parseSummary [(k, st)] ∧
      parseSummary (run_validation true judgeDown
          (CheckpointOutcome.ok true gxPassStats) batchC
          [detExpNotNull, aiExpC]).1.runResults = (true, 100) := by
  exact ⟨rfl, by decide⟩

/-! ### Claim C3 -/

/-- Claim C3 counterexample: a rule set holding an unknown rule type is
not rejected before evaluation: the unknown rule is routed to the
standard path, the checkpoint failure becomes a synthetic failing entry,
and the remaining semantic rule is still evaluated (its judge call
happens and its entry is present). -/
theorem C3_counterexample :
    standardExpectations [unknownExp, aiExpC] = [unknownExp] ∧
      run_validation true judgeAllTrue (CheckpointOutcome.failed "boom") batchC
          [unknownExp, aiExpC] =
        ({ runResults := [("error", syntheticStats "boom"),
            ("ai_validation_c", ⟨some true, 100, some "AI Checked: 0 failures"⟩)],
           success := false }, [["x"]]) ∧
      (run_validation true judgeAllTrue (CheckpointOutcome.failed "boom") batchC
          [unknownExp, aiExpC]).2 ≠ [] := by
  exact ⟨by decide, by decide, by decide⟩

/-- Claim C3 amended: a rule whose type is unknown is routed to the
deterministic (Great Expectations) path rather than rejected; when the
checkpoint fails on it, the failure is recorded as a synthetic failing
entry and the remaining semantic rules are still evaluated (the judge
calls proceed from that synthetic base unchanged). -/
theorem C3_amended_unknown_routed_not_rejected (apiKey : Bool)
    (judge : String → List String → Option (List (String × Bool)))
    (batch : Batch) (exps : List Exp) (e : Exp) (msg : String)
    (htype : e.type ≠ aiType) (hmem : e ∈ exps) :
    e ∈ standardExpectations exps ∧
      (run_validation apiKey judge (CheckpointOutcome.failed msg) batch exps).2 =
        (runAIExps apiKey judge batch [("error", syntheticStats msg)]
          (aiExpectations exps)).2 := by
  have hstdmem : e ∈ standardExpectations exps := by
    refine List.mem_filter.mpr ⟨hmem, ?_⟩
    simp [htype]
  refine ⟨hstdmem, ?_⟩
  have hstd : (standardExpectations exps).isEmpty = false := by
    cases h : standardExpectations exps with
    | nil =>
      rw [h] at hstdmem
      simp at hstdmem
    | cons a t => rfl
  have hbase : baseResultDict (CheckpointOutcome.failed msg) (standardExpectations exps) =
      { runResults := [("error", syntheticStats msg)], success := false } := by
    simp [baseResultDict, hstd]
  cases hA : aiExpectations exps with
  | nil => simp [run_validation, hA, runAIExps]
  | cons a t => simp [run_validation, hA, hbase]

/-- Witness for C3 amended, at the counterexample instance. -/
theorem C3_amended_witness :
    unknownExp ∈ standardExpectations [unknownExp, aiExpC] ∧
      (run_validation true judgeAllTrue (CheckpointOutcome.failed "m") batchC
          [unknownExp, aiExpC]).2 =
        (runAIExps true judgeAllTrue batchC [("error", syntheticStats "m")]
          (aiExpectations [unknownExp, aiExpC])).2 :=
  C3_amended_unknown_routed_not_rejected true judgeAllTrue batchC
    [unknownExp, aiExpC] unknownExp "m" (by decide) (by decide)

/-! ### Claim C4 -/

/-- Claim C4 counterexample: on the validation path a graph-store
descriptor is not rejected: driver selection silently falls back to the
postgres driver and a connection string is built from it. -/
theorem C4_counterexample :
    gxDriver cfgNeo = "postgresql+psycopg2" ∧
      gxConnectionString cfgNeo = "postgresql+psycopg2://u:p@h:7687/d" := by
  exact ⟨by decide, by decide⟩

/-- Claim C4 amended: the preview path rejects graph and document-store
dialects, and unknown dialects generally, before any connection attempt;
the validation path instead falls back to the default postgres driver
for the same descriptors. -/
theorem C4_amended_preview_rejects_validation_falls_back
    (a b : Bool) (h p un pw d t : Option String) :
    get_db_preview_url a b ⟨some "neo4j", h, p, un, pw, d, t⟩ =
        .error "Neo4j (Graph DB) is not supported via SQL preview yet." ∧
      get_db_preview_url a b ⟨some "mongodb", h, p, un, pw, d, t⟩ =
        .error "MongoDB (NoSQL) is not supported via SQL preview yet." ∧
      get_db_preview_url a b ⟨some "graphdb", h, p, un, pw, d, t⟩ =
        .error "Unsupported database type: graphdb" ∧
      gxDriver ⟨some "neo4j", h, p, un, pw, d, t⟩ = "postgresql+psycopg2" := by
  exact ⟨rfl, rfl, rfl, rfl⟩

/-! ### Claim C5 -/

/-- Claim C5 counterexample: the validation path interpolates the raw
password, so a special character lands unescaped in the URL, which
differs from the percent-encoded form the spec prescribes. -/
theorem C5_counterexample :
    gxConnectionString cfgAt = "postgresql+psycopg2://user:p@ss@h:5432/d" ∧
      gxConnectionString cfgAt ≠ specEncodedConnString "postgresql+psycopg2" cfgAt := by
  exact ⟨by decide, by decide⟩

/-- Claim C5 amended: percent-encoding of the credentials holds on the
preview path only: get_db_preview_url builds the URL from quote_plus of
the username and password, while the validation path interpolates them
raw. -/
theorem C5_amended_preview_encodes_validation_does_not
    (a b : Bool) (u pw h po d : String) (tb : Option String)
    (hu : (u == "") = false) (hp : (pw == "") = false) :
    get_db_preview_url a b ⟨some "postgres", some h, some po, some u, some pw, some d, tb⟩ =
        .ok ("postgresql+psycopg2://" ++ quotePlus u ++ ":" ++ quotePlus pw ++ "@" ++
          h ++ ":" ++ po ++ "/" ++ d) ∧
      gxConnectionString cfgAt = "postgresql+psycopg2://user:p@ss@h:5432/d" := by
  constructor
  · have base : get_db_preview_url a b
        ⟨some "postgres", some h, some po, some u, some pw, some d, tb⟩ =
        .ok ("postgresql+psycopg2://" ++ encOptCred (some u) ++ ":" ++
          encOptCred (some pw) ++ "@" ++ h ++ ":" ++ po ++ "/" ++ d) := rfl
    rw [base]
    simp [encOptCred, hu, hp]
  · decide

/-- Witness for C5 amended, at the counterexample descriptor. -/
theorem C5_amended_witness :
    get_db_preview_url true true
        ⟨some "postgres", some "h", some "5432", some "user", some "p@ss", some "d", none⟩ =
      .ok ("postgresql+psycopg2://" ++ quotePlus "user" ++ ":" ++ quotePlus "p@ss" ++
        "@" ++ "h" ++ ":" ++ "5432" ++ "/" ++ "d") ∧
      gxConnectionString cfgAt = "postgresql+psycopg2://user:p@ss@h:5432/d" :=
  C5_amended_preview_encodes_validation_does_not true true "user" "p@ss" "h" "5432" "d"
    none (by decide) (by decide)

/-! ### Claim C6 -/

/-- Claim C6: a column occurrence whose string form is absent from the
judge verdict map is counted as a failure and makes the rule outcome
unsuccessful (fail-closed), never ignored. -/
theorem C6_absent_verdict_counts_as_failure (values : List Value)
    (vmap : List (String × Bool)) (v : Value)
    (hv : v ∈ values) (habs : dictHasKey vmap (pyStr v) = false) :
    v ∈ aiFailures values vmap ∧ (aiRuleStats values vmap).success = some false := by
  have hget : dictGet vmap (pyStr v) false = false :=
    dictGet_eq_default vmap (pyStr v) false habs
  have hmemf : v ∈ aiFailures values vmap := by
    refine List.mem_filter.mpr ⟨hv, ?_⟩
    simp [hget]
  refine ⟨hmemf, ?_⟩
  have hie : (aiFailures values vmap).isEmpty = false := by
    cases hF : aiFailures values vmap with
    | nil => exact absurd hF (List.ne_nil_of_mem hmemf)
    | cons x t => rfl
  simp [aiRuleStats, hie]

/-- Witness for C6: a value missing from the verdict map fails the rule. -/
theorem C6_witness :
    Value.vStr "x" ∈ aiFailures [Value.vStr "x"] [("y", true)] ∧
      (aiRuleStats [Value.vStr "x"] [("y", true)]).success = some false :=
  C6_absent_verdict_counts_as_failure [Value.vStr "x"] [("y", true)] (Value.vStr "x")
    (by decide) (by decide)

/-! ### Claim C7 -/

/-- Claim C7: when the distinct value set is nonempty and the judge is
configured, exactly one batched judge call is made, its argument is the
deduplicated list (each distinct value appearing once), and that list
holds exactly the string forms of the non-null, non-empty input values. -/
theorem C7_dedup_single_batched_call
    (judge : String → List String → Option (List (String × Bool)))
    (prompt : String) (values : List Value)
    (hne : uniqueValues values ≠ []) :
    (validate_batch_with_ai true judge prompt values).2 = [uniqueValues values] ∧
      (uniqueValues values).Nodup ∧
      ∀ s, s ∈ uniqueValues values ↔
        ∃ v, v ∈ values ∧ isNoneOrEmpty v = false ∧ pyStr v = s := by
  refine ⟨?_, List.nodup_dedup _, ?_⟩
  · have hie : (uniqueValues values).isEmpty = false := by
      cases hU : uniqueValues values with
      | nil => exact absurd hU hne
      | cons a t => rfl
    cases hj : judge prompt (uniqueValues values) <;>
      simp [validate_batch_with_ai, hie, hj]
  · intro s
    unfold uniqueValues
    rw [List.mem_dedup]
    constructor
    · intro hs
      rcases List.mem_map.mp hs with ⟨v, hv, hvs⟩
      rcases List.mem_filter.mp hv with ⟨hv1, hv2⟩
      exact ⟨v, hv1, by simpa using hv2, hvs⟩
    · rintro ⟨v, hv1, hv2, hv3⟩
      exact List.mem_map.mpr ⟨v, List.mem_filter.mpr ⟨hv1, by simp [hv2]⟩, hv3⟩

/-- Witness for C7 at the input list named by the spec. -/
theorem C7_witness :
    (validate_batch_with_ai true judgeDown "p"
        [Value.vStr "a", Value.vStr "a", Value.vStr "b"]).2 =
      [uniqueValues [Value.vStr "a", Value.vStr "a", Value.vStr "b"]] ∧
      (uniqueValues [Value.vStr "a", Value.vStr "a", Value.vStr "b"]).Nodup ∧
      uniqueValues [Value.vStr "a", Value.vStr "a", Value.vStr "b"] = ["a", "b"] :=
  ⟨(C7_dedup_single_batched_call judgeDown "p"
      [Value.vStr "a", Value.vStr "a", Value.vStr "b"] (by decide)).1,
   (C7_dedup_single_batched_call judgeDown "p"
      [Value.vStr "a", Value.vStr "a", Value.vStr "b"] (by decide)).2.1,
   by decide⟩

/-! ### Claim C8 -/

/-- Claim C8 counterexample: a semantic rule on a column holding a single
null occurrence makes no judge call, yet its recorded outcome is a
failure (success false, score 0), not the vacuous success the claim
states. -/
theorem C8_counterexample :
    run_validation true judgeAllTrue (CheckpointOutcome.failed "m") batchNullCol
        [aiExpC] =
      ({ runResults := [("ai_validation_c",
          ⟨some false, 0, some "AI Checked: 1 failures"⟩)], success := true }, []) ∧
      (aiRuleStats [Value.vNull] []).success ≠ some true := by
  exact ⟨by decide, by decide⟩

/-- Claim C8 amended: when the distinct non-null, non-empty value set is
empty, no judge call is made and the verdict map is empty; the rule
outcome is then a success only when the column slice has no occurrences
at all — null/empty occurrences are counted as failures (fail-closed),
so a column of only null/empty values yields a failing outcome rather
than a vacuous success. -/
theorem C8_amended_empty_distinct_set (apiKey : Bool)
    (judge : String → List String → Option (List (String × Bool)))
    (prompt : String) (values : List Value)
    (hu : uniqueValues values = []) :
    validate_batch_with_ai apiKey judge prompt values = ([], []) ∧
      (aiRuleStats values []).success = some values.isEmpty := by
  constructor
  · simp [validate_batch_with_ai, hu]
  · simp [aiRuleStats, aiFailures, dictGet]

/-- Witness for C8 amended on a column holding a single null occurrence. -/
theorem C8_amended_witness :
    validate_batch_with_ai true judgeAllTrue "p" [Value.vNull] = ([], []) ∧
      (aiRuleStats [Value.vNull] []).success = some false :=
  C8_amended_empty_distinct_set true judgeAllTrue "p" [Value.vNull] (by decide)

/-! ### Claim C9 -/

/-- Claim C9 counterexample: the empty rule set yields overall success
true with score 0, refuting the claimed biconditional between a score
of 100 and overall success. -/
theorem C9_counterexample :
    parseSummary (run_validation true judgeAllTrue
        (CheckpointOutcome.ok true gxPassStats) batchC []).1.runResults = (true, 0) ∧
      ((0 : ℚ) ≠ 100) := by
  exact ⟨by decide, by decide⟩

/-- Claim C9 amended: assuming the checkpoint statistics report a score
in [0,100], the recorded score lies in [0,100] and a score of exactly
100 forces overall success; the converse implication of the claimed
biconditional fails (empty rule set: success true, score 0). -/
theorem C9_amended_score_range_and_forcing (apiKey : Bool)
    (judge : String → List String → Option (List (String × Bool)))
    (chk : CheckpointOutcome) (batch : Batch) (exps : List Exp)
    (hchk : ∀ ts st, chk = CheckpointOutcome.ok ts st → pctInRange st) :
    (0 ≤ (parseSummary (run_validation apiKey judge chk batch exps).1.runResults).2 ∧
      (parseSummary (run_validation apiKey judge chk batch exps).1.runResults).2 ≤ 100) ∧
      ((parseSummary (run_validation apiKey judge chk batch exps).1.runResults).2 = 100 →
        (parseSummary (run_validation apiKey judge chk batch exps).1.runResults).1 = true) := by
  constructor
  · have hall := runValidation_entries_pctInRange apiKey judge chk batch exps hchk
    cases hrr : (run_validation apiKey judge chk batch exps).1.runResults with
    | nil => norm_num [parseSummary]
    | cons p t =>
      have hp : pctInRange p.2 := hall p (by rw [hrr]; exact List.mem_cons_self p t)
      cases p with
      | mk k st =>
        simp only [parseSummary]
        exact hp
  · exact parseSummary_score100 _

/-- Witness for C9 amended at a concrete passing run. -/
theorem C9_amended_witness :
    (0 ≤ (parseSummary (run_validation true judgeAllTrue
          (CheckpointOutcome.ok true gxPassStats) batchC
          [detExpNotNull]).1.runResults).2 ∧
      (parseSummary (run_validation true judgeAllTrue
          (CheckpointOutcome.ok true gxPassStats) batchC
          [detExpNotNull]).1.runResults).2 ≤ 100) ∧
      ((parseSummary (run_validation true judgeAllTrue
          (CheckpointOutcome.ok true gxPassStats) batchC
          [detExpNotNull]).1.runResults).2 = 100 →
        (parseSummary (run_validation true judgeAllTrue
          (CheckpointOutcome.ok true gxPassStats) batchC
          [detExpNotNull]).1.runResults).1 = true) :=
  C9_amended_score_range_and_forcing true judgeAllTrue
    (CheckpointOutcome.ok true gxPassStats) batchC [detExpNotNull]
    (by intro ts st h; cases h; constructor <;> norm_num [gxPassStats])

/-! ### Claim C10 -/

/-- Claim C10: a run whose rules are all semantic rules targeting one
column produces exactly one outcome entry for that column, keyed
`ai_validation_<column>`, holding the outcome of the last such rule;
earlier rules' outcomes are overwritten. -/
theorem C10_same_column_last_rule_wins (apiKey : Bool)
    (judge : String → List String → Option (List (String × Bool)))
    (chk : CheckpointOutcome) (batch : Batch) (c : String) (es : List Exp)
    (hc : (c != "" && batch.hasCol c) = true)
    (hne : es ≠ [])
    (hall : ∀ e ∈ es, e.type = aiType ∧ e.kwargsColumn = some c) :
    (run_validation apiKey judge chk batch es).1.runResults =
      [("ai_validation_" ++ c, aiExpOutcome apiKey judge batch c (es.getLast hne))] := by
  have hstd : standardExpectations es = [] := by
    simp only [standardExpectations, List.filter_eq_nil_iff]
    intro e he
    simp [(hall e he).1]
  have hai : aiExpectations es = es := by
    apply List.filter_eq_self.mpr
    intro e he
    simp [(hall e he).1]
  cases es with
  | nil => exact absurd rfl hne
  | cons e rest =>
    have hcol : e.kwargsColumn = some c := (hall e (List.mem_cons_self e rest)).2
    have hrun : (run_validation apiKey judge chk batch (e :: rest)).1.runResults =
        (runAIExps apiKey judge batch [] (e :: rest)).1 := by
      simp [run_validation, hstd, hai, baseResultDict]
    have hproc0 : (processAIExp apiKey judge batch [] e).1 =
        [("ai_validation_" ++ c, aiExpOutcome apiKey judge batch c e)] := by
      simp only [processAIExp, hcol, hc, if_true, aiExpOutcome]
      simp [dictInsert]
    rw [hrun]
    simp only [runAIExps]
    rw [hproc0]
    rw [runAIExps_same_key apiKey judge batch c hc rest
      (fun x hx => (hall x (List.mem_cons_of_mem e hx)).2)
      (aiExpOutcome apiKey judge batch c e)]
    have hfold : rest.foldl (fun _ x => aiExpOutcome apiKey judge batch c x)
        (aiExpOutcome apiKey judge batch c e) =
        (e :: rest).foldl (fun _ x => aiExpOutcome apiKey judge batch c x)
          (aiExpOutcome apiKey judge batch c e) := by
      rw [List.foldl_cons]
    rw [hfold, foldl_const_getLast (aiExpOutcome apiKey judge batch c) (e :: rest) hne]

/-- Witness for C10: two semantic rules on the same column; the single
entry holds the second rule's outcome. -/
theorem C10_witness :
    (run_validation true judgeAllTrue (CheckpointOutcome.ok true gxPassStats)
        batchC [aiExpC, aiExpC2]).1.runResults =
      [("ai_validation_" ++ "c", aiExpOutcome true judgeAllTrue batchC "c" aiExpC2)] :=
  C10_same_column_last_rule_wins true judgeAllTrue
    (CheckpointOutcome.ok true gxPassStats) batchC "c" [aiExpC, aiExpC2]
    (by decide) (by decide) (by decide)

end DV
